import Mathlib

/-!
Verification development for the double-signing guard of a Tendermint-style
validator (`types/priv_validator.go`).

Shallow embedding choices:
* Go `int64`/`int`/`int8` fields (`LastHeight`, `LastRound`, `LastStep`) are
  modelled as `Int`; the claims involve no overflowing arithmetic.
* `crypto.Signature` is a byte string (`List Nat`); `Signature{}` / `Empty()`
  corresponds to `[]`.
* A Go `[]byte` that may be `nil` (`LastSignBytes`) is `Option (List Nat)`,
  with `none` for `nil`.
* The `Signer` backend is a parameter `List Nat → Except String (List Nat)`
  (its error is propagated); the canonicalizer `SignBytes` is external, so
  every signing operation takes the already-canonicalized bytes as input;
  the kind-specific timestamp-equivalence checkers
  (`checkVotesOnlyDifferByTimestamp` / `checkProposalsOnlyDifferByTimestamp`)
  are a parameter `checkFn : List Nat → List Nat → Bool`.
* Go panics (`cmn.PanicSanity`, `panic`) are an explicit `panicked` outcome.
* Persistence (`save`) is modelled by a `persisted` flag in the outcome of
  each operation, and invocations of the Signer backend are counted by a
  `signerCalls` field, so frame properties ("state unpersisted", "Signer not
  invoked") are statable.
-/

namespace Tendermint

/-- Step constants from the source (`stepNone`..`stepPrecommit`). -/
def stepNone : Int := 0

def stepPropose : Int := 1

def stepPrevote : Int := 2

def stepPrecommit : Int := 3

/-- Modelled from the spec: vote kinds. The source constants `VoteTypePrevote` /
`VoteTypePrecommit` constants live in a file not present under `src/`; per the
spec, "A vote maps to `Prevote` or `Precommit` by its kind", and any other
kind is unknown (`voteToStep` panics on it). `Unknown n` ranges over every
byte value that is neither of the two known kinds. -/
inductive VoteType where
  | Prevote : VoteType
  | Precommit : VoteType
  | Unknown : Nat → VoteType
deriving Repr, DecidableEq

/-- A vote, restricted to the fields `SignVote` reads (`Type`, `Height`,
`Round`); the field `Type` is renamed `vtype` (`Type` is a Lean keyword). -/
structure Vote where
  vtype : VoteType
  Height : Int
  Round : Int
deriving Repr, DecidableEq

/-- A proposal, restricted to the fields `SignProposal` reads. -/
structure Proposal where
  Height : Int
  Round : Int
deriving Repr, DecidableEq

/-- `voteToStep` from the source: `Prevote ↦ stepPrevote`,
`Precommit ↦ stepPrecommit`, anything else hits `cmn.PanicSanity`
(modelled as `none`). -/
def voteToStep (vote : Vote) : Option Int :=
  match vote.vtype with
  | VoteType.Prevote => some stepPrevote
  | VoteType.Precommit => some stepPrecommit
  | VoteType.Unknown _ => none

/-- The state of `PrivValidatorFS` relevant to the claims: the signing state
(`LastHeight`, `LastRound`, `LastStep`, `LastSignature`, `LastSignBytes`) and
the key fields used by `save` (`PrivKey`, `oldPrivKey`; `[]` is the empty
key, i.e. Go `Empty()`). -/
structure PrivValidatorFS where
  LastHeight : Int
  LastRound : Int
  LastStep : Int
  LastSignature : List Nat
  LastSignBytes : Option (List Nat)
  PrivKey : List Nat
  oldPrivKey : List Nat
deriving Repr, DecidableEq

/-- The error taxonomy of the guard. The source uses error strings
("Height regression", "Round regression", "Step regression",
"No LastSignature found", "Conflicting data", plus the error of the Signer backend itself); the spec names them `HeightRegression`, `RoundRegression`,
`StepRegression`, `NoPriorSignature`, `ConflictingSignRequest`,
`SigningBackendError`. -/
inductive SignErr where
  | HeightRegression : SignErr
  | RoundRegression : SignErr
  | StepRegression : SignErr
  | NoPriorSignature : SignErr
  | ConflictingSignRequest : SignErr
  | SigningBackendError : String → SignErr
deriving Repr, DecidableEq

/-- Outcome of `checkHRS`: `(bool, error)` in Go, plus the explicit `panic`
("LastSignature is nil but LastSignBytes is not!"). -/
inductive HRSResult where
  | ok : Bool → HRSResult
  | err : SignErr → HRSResult
  | panicked : HRSResult
deriving Repr, DecidableEq

/-- `checkHRS` from the source, line for line: returns an error on HRS
regression or on missing `LastSignBytes` at the same HRS, `ok true` when the
HRS is unchanged (and prior bytes exist), `ok false` otherwise. -/
def checkHRS (pv : PrivValidatorFS) (height round step : Int) : HRSResult :=
  if pv.LastHeight > height then HRSResult.err SignErr.HeightRegression
  else if pv.LastHeight = height then
    if pv.LastRound > round then HRSResult.err SignErr.RoundRegression
    else if pv.LastRound = round then
      if pv.LastStep > step then HRSResult.err SignErr.StepRegression
      else if pv.LastStep = step then
        match pv.LastSignBytes with
        | some _ =>
          if pv.LastSignature = [] then HRSResult.panicked
          else HRSResult.ok true
        | none => HRSResult.err SignErr.NoPriorSignature
      else HRSResult.ok false
    else HRSResult.ok false
  else HRSResult.ok false

/-- Result of a signing operation: a signature, a typed error, or a panic. -/
inductive SignResult where
  | ok : List Nat → SignResult
  | err : SignErr → SignResult
  | panicked : SignResult
deriving Repr, DecidableEq

/-- Full outcome of a signing operation: the result, the `PrivValidatorFS`
state after the call, whether the state was persisted (`save` ran), and how
many times the Signer backend was invoked. -/
structure SignOut where
  result : SignResult
  pv : PrivValidatorFS
  persisted : Bool
  signerCalls : Nat
deriving Repr, DecidableEq

/-- `saveSigned` from the source (state-mutation part): record
height/round/step, the signature and the sign bytes. Its `pv.save()` call is
the `persisted` flag in the `SignOut` of the caller. -/
def saveSigned (pv : PrivValidatorFS) (height round step : Int)
    (signBytes : List Nat) (sig : List Nat) : PrivValidatorFS :=
  { pv with
    LastHeight := height
    LastRound := round
    LastStep := step
    LastSignature := sig
    LastSignBytes := some signBytes }

/-- `signBytesHRS` from the source: consult `checkHRS`; on the same HRS
return `LastSignature` when the bytes are equal to `LastSignBytes` or the
kind-specific checker says they differ only by timestamp, else fail with
"Conflicting data"; on a strictly greater HRS invoke the Signer and commit
via `saveSigned`. (`Option.getD [] = bytes.Equal` against a possibly-nil
slice; `checkHRS` only answers `ok true` when `LastSignBytes` is non-nil.) -/
def signBytesHRS (signer : List Nat → Except String (List Nat))
    (checkFn : List Nat → List Nat → Bool) (pv : PrivValidatorFS)
    (height round step : Int) (signBytes : List Nat) : SignOut :=
  match checkHRS pv height round step with
  | HRSResult.err e => ⟨SignResult.err e, pv, false, 0⟩
  | HRSResult.panicked => ⟨SignResult.panicked, pv, false, 0⟩
  | HRSResult.ok true =>
    if signBytes = pv.LastSignBytes.getD [] ∨
        checkFn (pv.LastSignBytes.getD []) signBytes = true then
      ⟨SignResult.ok pv.LastSignature, pv, false, 0⟩
    else
      ⟨SignResult.err SignErr.ConflictingSignRequest, pv, false, 0⟩
  | HRSResult.ok false =>
    match signer signBytes with
    | Except.error msg =>
      ⟨SignResult.err (SignErr.SigningBackendError msg), pv, false, 1⟩
    | Except.ok sig =>
      ⟨SignResult.ok sig, saveSigned pv height round step signBytes sig, true, 1⟩

/-- `SignVote` from the source: compute the step via `voteToStep` (which
panics on an unknown vote kind, before any HRS check or signing) and defer to
`signBytesHRS` with the canonical bytes of the vote and the vote equivalence
checker. -/
def SignVote (signer : List Nat → Except String (List Nat))
    (checkVotes : List Nat → List Nat → Bool) (pv : PrivValidatorFS)
    (vote : Vote) (voteSignBytes : List Nat) : SignOut :=
  match voteToStep vote with
  | none => ⟨SignResult.panicked, pv, false, 0⟩
  | some step =>
    signBytesHRS signer checkVotes pv vote.Height vote.Round step voteSignBytes

/-- `SignProposal` from the source: always step `stepPropose`, deferring to
`signBytesHRS` with the canonical bytes of the proposal and the proposal
equivalence checker. -/
def SignProposal (signer : List Nat → Except String (List Nat))
    (checkProposals : List Nat → List Nat → Bool) (pv : PrivValidatorFS)
    (proposal : Proposal) (proposalSignBytes : List Nat) : SignOut :=
  signBytesHRS signer checkProposals pv proposal.Height proposal.Round
    stepPropose proposalSignBytes

/-- `SignHeartbeat` from the source: invoke the Signer directly on the
canonical bytes of the heartbeat — no `checkHRS`, no state change, no `save`. -/
def SignHeartbeat (signer : List Nat → Except String (List Nat))
    (pv : PrivValidatorFS) (heartbeatSignBytes : List Nat) : SignOut :=
  match signer heartbeatSignBytes with
  | Except.error msg =>
    ⟨SignResult.err (SignErr.SigningBackendError msg), pv, false, 1⟩
  | Except.ok sig => ⟨SignResult.ok sig, pv, false, 1⟩

/-- `Reset` from the source: clear all signing-state fields and persist
(second component: the `Save()` call ran). -/
def Reset (pv : PrivValidatorFS) : PrivValidatorFS × Bool :=
  ({ pv with
      LastHeight := 0
      LastRound := 0
      LastStep := 0
      LastSignature := []
      LastSignBytes := none }, true)

/-- `ModifyLastHeight` from the source: set `LastHeight := h`, reset round to
0, pin the step to 3 (`stepPrecommit`), clear signature and bytes, persist. -/
def ModifyLastHeight (pv : PrivValidatorFS) (h : Int) : PrivValidatorFS × Bool :=
  ({ pv with
      LastHeight := h
      LastRound := 0
      LastStep := 3
      LastSignature := []
      LastSignBytes := none }, true)

/-- `save` from the source: it copies the validator (`bakPrivVal := *pv`),
substitutes `oldPrivKey` for `PrivKey` in the copy when `oldPrivKey` is
non-empty, and marshals the copy. First component: the live validator after
the call (untouched); second component: the record that is persisted. -/
def save (pv : PrivValidatorFS) : PrivValidatorFS × PrivValidatorFS :=
  (pv,
    if pv.oldPrivKey = [] then pv
    else { pv with PrivKey := pv.oldPrivKey })

/-- The `(LastHeight, LastRound, LastStep)` triple of a state. -/
def hrs (pv : PrivValidatorFS) : Int × Int × Int :=
  (pv.LastHeight, pv.LastRound, pv.LastStep)

/-- Strict lexicographic order on HRS triples. -/
def lexLT (a b : Int × Int × Int) : Prop :=
  a.1 < b.1 ∨ (a.1 = b.1 ∧ (a.2.1 < b.2.1 ∨ (a.2.1 = b.2.1 ∧ a.2.2 < b.2.2)))

/-- Reflexive lexicographic order on HRS triples. -/
def lexLE (a b : Int × Int × Int) : Prop :=
  lexLT a b ∨ a = b

instance (a b : Int × Int × Int) : Decidable (lexLT a b) := by
  unfold lexLT
  infer_instance

instance (a b : Int × Int × Int) : Decidable (lexLE a b) := by
  unfold lexLE
  infer_instance

/-- A signing request as fed to `signBytesHRS`: an HRS triple plus the
canonical bytes. -/
structure Req where
  height : Int
  round : Int
  step : Int
  bytes : List Nat
deriving Repr, DecidableEq

/-- A sequence of `signBytesHRS` calls threaded through the state: returns
the final state and whether every call succeeded (stopping at the first
non-success). -/
def signSeq (signer : List Nat → Except String (List Nat))
    (checkFn : List Nat → List Nat → Bool) :
    PrivValidatorFS → List Req → PrivValidatorFS × Bool
  | pv, [] => (pv, true)
  | pv, q :: qs =>
    match signBytesHRS signer checkFn pv q.height q.round q.step q.bytes with
    | ⟨SignResult.ok _, pv1, _, _⟩ => signSeq signer checkFn pv1 qs
    | ⟨_, pv1, _, _⟩ => (pv1, false)

/-- Each request in the list is lexicographically strictly above the previous
HRS triple, starting from `t`. -/
def increasingFrom : Int × Int × Int → List Req → Prop
  | _, [] => True
  | t, q :: qs =>
    lexLT t (q.height, q.round, q.step) ∧
      increasingFrom (q.height, q.round, q.step) qs

end Tendermint

namespace Tendermint

/-- `checkHRS` answers `ok false` exactly when the requested HRS triple is
lexicographically strictly above the recorded one. -/
theorem checkHRS_eq_okFalse_iff (pv : PrivValidatorFS) (h r s : Int) :
    checkHRS pv h r s = HRSResult.ok false ↔ lexLT (hrs pv) (h, r, s) := by
  rcases hl : pv.LastSignBytes with _ | lb <;>
    simp only [checkHRS, hl, hrs, lexLT] <;>
    split_ifs <;> simp_all <;> omega

/-- `checkHRS` at the recorded HRS with prior sign bytes present and a
non-empty prior signature answers `ok true`. -/
theorem checkHRS_same_present (pv : PrivValidatorFS) (lb : List Nat)
    (hb : pv.LastSignBytes = some lb) (hsig : pv.LastSignature ≠ []) :
    checkHRS pv pv.LastHeight pv.LastRound pv.LastStep = HRSResult.ok true := by
  simp [checkHRS, hb, hsig]

/-- In the strictly-greater case with a successful Signer, `signBytesHRS`
returns the fresh signature and commits it via `saveSigned`, persisting. -/
theorem signBytesHRS_strictly_greater
    (signer : List Nat → Except String (List Nat))
    (checkFn : List Nat → List Nat → Bool) (pv : PrivValidatorFS)
    (h r s : Int) (bytes sig : List Nat)
    (hgt : lexLT (hrs pv) (h, r, s)) (hsig : signer bytes = Except.ok sig) :
    signBytesHRS signer checkFn pv h r s bytes =
      ⟨SignResult.ok sig, saveSigned pv h r s bytes sig, true, 1⟩ := by
  have hc : checkHRS pv h r s = HRSResult.ok false :=
    (checkHRS_eq_okFalse_iff pv h r s).mpr hgt
  simp [signBytesHRS, hc, hsig]

end Tendermint

namespace Tendermint

/-- C1: at the recorded HRS, a request whose canonical bytes are neither
byte-identical to `LastSignBytes` nor timestamp-equivalent per the checker
fails with `ConflictingSignRequest`; if `LastSignBytes` is absent at that
HRS, the request fails with `NoPriorSignature`. In both cases the state is
unchanged, nothing is persisted, and the Signer is never invoked (no new
signature is produced). -/
theorem claim_C1 (signer : List Nat → Except String (List Nat))
    (checkFn : List Nat → List Nat → Bool) (pv : PrivValidatorFS)
    (h r s : Int) (bytes : List Nat)
    (hh : pv.LastHeight = h) (hr : pv.LastRound = r) (hs : pv.LastStep = s) :
    (∀ lb, pv.LastSignBytes = some lb → pv.LastSignature ≠ [] →
      bytes ≠ lb → checkFn lb bytes = false →
      signBytesHRS signer checkFn pv h r s bytes =
        ⟨SignResult.err SignErr.ConflictingSignRequest, pv, false, 0⟩) ∧
    (pv.LastSignBytes = none →
      signBytesHRS signer checkFn pv h r s bytes =
        ⟨SignResult.err SignErr.NoPriorSignature, pv, false, 0⟩) := by
  subst hh hr hs
  constructor
  · intro lb hlb hsig hne hchk
    have hc := checkHRS_same_present pv lb hlb hsig
    simp [signBytesHRS, hc, hlb, hne, hchk]
  · intro hnone
    have hc : checkHRS pv pv.LastHeight pv.LastRound pv.LastStep =
        HRSResult.err SignErr.NoPriorSignature := by
      simp [checkHRS, hnone]
    simp [signBytesHRS, hc]

/-- C2: a request behind the recorded HRS fails with the matching regression
error (`HeightRegression`, `RoundRegression` or `StepRegression`), leaving
the state unchanged, unpersisted and the Signer uninvoked. -/
theorem claim_C2 (signer : List Nat → Except String (List Nat))
    (checkFn : List Nat → List Nat → Bool) (pv : PrivValidatorFS)
    (h r s : Int) (bytes : List Nat) :
    (h < pv.LastHeight →
      signBytesHRS signer checkFn pv h r s bytes =
        ⟨SignResult.err SignErr.HeightRegression, pv, false, 0⟩) ∧
    (h = pv.LastHeight → r < pv.LastRound →
      signBytesHRS signer checkFn pv h r s bytes =
        ⟨SignResult.err SignErr.RoundRegression, pv, false, 0⟩) ∧
    (h = pv.LastHeight → r = pv.LastRound → s < pv.LastStep →
      signBytesHRS signer checkFn pv h r s bytes =
        ⟨SignResult.err SignErr.StepRegression, pv, false, 0⟩) := by
  refine ⟨?_, ?_, ?_⟩
  · intro hlt
    have hc : checkHRS pv h r s = HRSResult.err SignErr.HeightRegression := by
      simp [checkHRS, hlt]
    simp [signBytesHRS, hc]
  · intro hhe hlt
    have hc : checkHRS pv h r s = HRSResult.err SignErr.RoundRegression := by
      simp [checkHRS, hhe.symm, hlt]
    simp [signBytesHRS, hc]
  · intro hhe hre hlt
    have hc : checkHRS pv h r s = HRSResult.err SignErr.StepRegression := by
      simp [checkHRS, hhe.symm, hre.symm, hlt]
    simp [signBytesHRS, hc]

/-- C3: at the recorded HRS with prior bytes present, a request whose bytes
are byte-identical to `LastSignBytes`, or timestamp-equivalent per the
kind-specific checker, returns `LastSignature` unchanged — the Signer
backend is not invoked and the state is neither modified nor persisted. -/
theorem claim_C3 (signer : List Nat → Except String (List Nat))
    (checkFn : List Nat → List Nat → Bool) (pv : PrivValidatorFS)
    (h r s : Int) (bytes lb : List Nat)
    (hh : pv.LastHeight = h) (hr : pv.LastRound = r) (hs : pv.LastStep = s)
    (hlb : pv.LastSignBytes = some lb) (hsig : pv.LastSignature ≠ [])
    (heq : bytes = lb ∨ checkFn lb bytes = true) :
    signBytesHRS signer checkFn pv h r s bytes =
      ⟨SignResult.ok pv.LastSignature, pv, false, 0⟩ := by
  subst hh hr hs
  have hc := checkHRS_same_present pv lb hlb hsig
  rcases heq with he | he <;> simp [signBytesHRS, hc, hlb, he]

/-- C5: when the request reaches the Signer (no regression, not the same-HRS
case) and the Signer fails, the backend error is propagated and the state is
left exactly as before, with no persistence. -/
theorem claim_C5 (signer : List Nat → Except String (List Nat))
    (checkFn : List Nat → List Nat → Bool) (pv : PrivValidatorFS)
    (h r s : Int) (bytes : List Nat) (msg : String)
    (hok : checkHRS pv h r s = HRSResult.ok false)
    (hfail : signer bytes = Except.error msg) :
    signBytesHRS signer checkFn pv h r s bytes =
      ⟨SignResult.err (SignErr.SigningBackendError msg), pv, false, 1⟩ := by
  simp [signBytesHRS, hok, hfail]

end Tendermint

namespace Tendermint

/-- Over a non-empty sequence of requests each strictly above the previous
HRS, with a Signer that always succeeds, every call succeeds and the final
state records exactly the last request (its HRS, its bytes, and the
signature the Signer produced for those bytes). -/
theorem signSeq_increasing (signer : List Nat → Except String (List Nat))
    (checkFn : List Nat → List Nat → Bool)
    (htot : ∀ b, ∃ s0, signer b = Except.ok s0) :
    ∀ (reqs : List Req) (q : Req) (pv : PrivValidatorFS),
      increasingFrom (hrs pv) (reqs ++ [q]) →
      (signSeq signer checkFn pv (reqs ++ [q])).2 = true ∧
      hrs (signSeq signer checkFn pv (reqs ++ [q])).1 =
        (q.height, q.round, q.step) ∧
      (signSeq signer checkFn pv (reqs ++ [q])).1.LastSignBytes =
        some q.bytes ∧
      signer q.bytes =
        Except.ok (signSeq signer checkFn pv (reqs ++ [q])).1.LastSignature := by
  intro reqs
  induction reqs with
  | nil =>
    intro q pv hinc
    obtain ⟨s0, hs0⟩ := htot q.bytes
    obtain ⟨hlt, -⟩ := hinc
    have hcall := signBytesHRS_strictly_greater signer checkFn pv
      q.height q.round q.step q.bytes s0 hlt hs0
    simp [signSeq, hcall, saveSigned, hrs, hs0]
  | cons a rest ih =>
    intro q pv hinc
    obtain ⟨hlt, hrest⟩ := hinc
    obtain ⟨s0, hs0⟩ := htot a.bytes
    have hcall := signBytesHRS_strictly_greater signer checkFn pv
      a.height a.round a.step a.bytes s0 hlt hs0
    have hnext := ih q (saveSigned pv a.height a.round a.step a.bytes s0) hrest
    simpa [signSeq, hcall] using hnext

/-- C4: a request strictly above the recorded HRS whose Signer call succeeds
returns the fresh signature, the state afterwards holds exactly the
requested height, round, step, bytes and that signature, and the state is
persisted; moreover, over any non-empty strictly increasing sequence of such
requests with a Signer that always succeeds, every call succeeds and the
state always reflects the most recent call exactly. -/
theorem claim_C4 (signer : List Nat → Except String (List Nat))
    (checkFn : List Nat → List Nat → Bool) (pv : PrivValidatorFS)
    (h r s : Int) (bytes sig : List Nat) (reqs : List Req) (q : Req) :
    (lexLT (hrs pv) (h, r, s) → signer bytes = Except.ok sig →
      signBytesHRS signer checkFn pv h r s bytes =
        ⟨SignResult.ok sig,
         { pv with
            LastHeight := h
            LastRound := r
            LastStep := s
            LastSignature := sig
            LastSignBytes := some bytes },
         true, 1⟩) ∧
    ((∀ b, ∃ s0, signer b = Except.ok s0) →
      increasingFrom (hrs pv) (reqs ++ [q]) →
      (signSeq signer checkFn pv (reqs ++ [q])).2 = true ∧
      hrs (signSeq signer checkFn pv (reqs ++ [q])).1 =
        (q.height, q.round, q.step) ∧
      (signSeq signer checkFn pv (reqs ++ [q])).1.LastSignBytes =
        some q.bytes ∧
      signer q.bytes =
        Except.ok (signSeq signer checkFn pv (reqs ++ [q])).1.LastSignature) := by
  constructor
  · intro hgt hsig
    exact signBytesHRS_strictly_greater signer checkFn pv h r s bytes sig
      hgt hsig
  · intro htot hinc
    exact signSeq_increasing signer checkFn htot reqs q pv hinc

end Tendermint

namespace Tendermint

/-- A concrete state that has already signed at height 1; used to exhibit
that `Reset` moves the HRS triple backwards. -/
def pvHeight1 : PrivValidatorFS :=
  { LastHeight := 1
    LastRound := 0
    LastStep := 3
    LastSignature := [7]
    LastSignBytes := some [1]
    PrivKey := []
    oldPrivKey := [] }

/-- C6 counterexample: `Reset` is an operation exposed by the guard, yet on a
state recorded at HRS (1, 0, 3) it moves the triple strictly backwards to
(0, 0, 0) — so the triple is not monotonically non-decreasing under every
exposed operation. -/
theorem claim_C6_counterexample :
    lexLT (hrs (Reset pvHeight1).1) (hrs pvHeight1) := by
  decide

/-- C6 (amended): the HRS triple is monotonically non-decreasing under the
signing operations — `signBytesHRS` (hence `SignVote` and `SignProposal`)
and `SignHeartbeat` — but the explicitly unsafe `Reset` and
`ModifyLastHeight` operations may move it backwards. -/
theorem claim_C6_amended (signer : List Nat → Except String (List Nat))
    (checkFn : List Nat → List Nat → Bool) (pv : PrivValidatorFS)
    (h r s : Int) (bytes hb : List Nat) :
    lexLE (hrs pv) (hrs (signBytesHRS signer checkFn pv h r s bytes).pv) ∧
    hrs (SignHeartbeat signer pv hb).pv = hrs pv := by
  constructor
  · cases hc : checkHRS pv h r s with
    | err e => simp [signBytesHRS, hc, lexLE]
    | panicked => simp [signBytesHRS, hc, lexLE]
    | ok b =>
      cases b with
      | true =>
        simp only [signBytesHRS, hc]
        split_ifs <;> simp [lexLE]
      | false =>
        have hlt := (checkHRS_eq_okFalse_iff pv h r s).mp hc
        cases hsb : signer bytes with
        | error m => simp [signBytesHRS, hc, hsb, lexLE]
        | ok sg =>
          simp only [signBytesHRS, hc, hsb]
          exact Or.inl hlt
  · cases hhb : signer hb <;> simp [SignHeartbeat, hhb]

end Tendermint

namespace Tendermint

/-- C7: `ModifyLastHeight h` pins the state to `(h, 0, 3)` (round 0, step
`stepPrecommit`) with signature and bytes cleared, and persists it; a
subsequent prevote at height `h`, round 0 then fails with `StepRegression`
(state untouched, Signer uninvoked), while a proposal at height `h + 1`,
round 0 succeeds when the Signer does. -/
theorem claim_C7 (signer : List Nat → Except String (List Nat))
    (checkVotes checkProposals : List Nat → List Nat → Bool)
    (pv : PrivValidatorFS) (h : Int) (vbytes pbytes sig : List Nat)
    (hsig : signer pbytes = Except.ok sig) :
    ModifyLastHeight pv h =
      ({ pv with
          LastHeight := h
          LastRound := 0
          LastStep := 3
          LastSignature := []
          LastSignBytes := none }, true) ∧
    SignVote signer checkVotes (ModifyLastHeight pv h).1
        { vtype := VoteType.Prevote, Height := h, Round := 0 } vbytes =
      ⟨SignResult.err SignErr.StepRegression, (ModifyLastHeight pv h).1,
       false, 0⟩ ∧
    SignProposal signer checkProposals (ModifyLastHeight pv h).1
        { Height := h + 1, Round := 0 } pbytes =
      ⟨SignResult.ok sig,
       saveSigned (ModifyLastHeight pv h).1 (h + 1) 0 stepPropose pbytes sig,
       true, 1⟩ := by
  refine ⟨rfl, ?_, ?_⟩
  · have hc : checkHRS (ModifyLastHeight pv h).1 h 0 stepPrevote =
        HRSResult.err SignErr.StepRegression := by
      simp [checkHRS, ModifyLastHeight, stepPrevote]
    simp [SignVote, voteToStep, signBytesHRS, hc]
  · have hgt : lexLT (hrs (ModifyLastHeight pv h).1) (h + 1, 0, stepPropose) := by
      simp [lexLT, hrs, ModifyLastHeight]
    exact signBytesHRS_strictly_greater signer checkProposals
      (ModifyLastHeight pv h).1 (h + 1) 0 stepPropose pbytes sig hgt hsig

/-- C8: `SignHeartbeat` performs no HRS check at all: it leaves the state
unchanged and unpersisted, invokes the Signer exactly once, and its result
is either the fresh signature or the propagated backend error — never a
safety-rejection error or a panic. -/
theorem claim_C8 (signer : List Nat → Except String (List Nat))
    (pv : PrivValidatorFS) (hb : List Nat) :
    (SignHeartbeat signer pv hb).pv = pv ∧
    (SignHeartbeat signer pv hb).persisted = false ∧
    (SignHeartbeat signer pv hb).signerCalls = 1 ∧
    ((∃ sg, (SignHeartbeat signer pv hb).result = SignResult.ok sg ∧
        signer hb = Except.ok sg) ∨
      (∃ m, (SignHeartbeat signer pv hb).result =
          SignResult.err (SignErr.SigningBackendError m) ∧
        signer hb = Except.error m)) := by
  cases hhb : signer hb with
  | error m => simp [SignHeartbeat, hhb]
  | ok sg => simp [SignHeartbeat, hhb]

/-- C9: `save` leaves the live validator untouched, and when the originally
provisioned key (`oldPrivKey`) is non-empty the persisted record carries it
in place of the live `PrivKey` value. -/
theorem claim_C9 (pv : PrivValidatorFS) :
    (save pv).1 = pv ∧
    (pv.oldPrivKey ≠ [] →
      (save pv).2 = { pv with PrivKey := pv.oldPrivKey }) := by
  refine ⟨rfl, ?_⟩
  intro hne
  simp [save, hne]

/-- C10: a vote whose kind is neither `Prevote` nor `Precommit` makes
`SignVote` panic in `voteToStep` before any HRS check or signing: the
outcome is `panicked` with the state unchanged, nothing persisted, and the
Signer never invoked — no typed safety-rejection or backend error is
returned. -/
theorem claim_C10 (signer : List Nat → Except String (List Nat))
    (checkVotes : List Nat → List Nat → Bool) (pv : PrivValidatorFS)
    (n : Nat) (h r : Int) (bytes : List Nat) :
    SignVote signer checkVotes pv
        { vtype := VoteType.Unknown n, Height := h, Round := r } bytes =
      ⟨SignResult.panicked, pv, false, 0⟩ := by
  rfl

end Tendermint

namespace Tendermint

/-- A Signer that always succeeds with signature `[7]`; witness input. -/
def signerConst : List Nat → Except String (List Nat) :=
  fun _ => Except.ok [7]

/-- A Signer that always fails; witness input. -/
def signerFail : List Nat → Except String (List Nat) :=
  fun _ => Except.error "hw io failure"

/-- A timestamp-equivalence checker that never matches; witness input. -/
def chkNever : List Nat → List Nat → Bool :=
  fun _ _ => false

/-- A fresh validator state (all signing fields initial); witness input. -/
def pvInit : PrivValidatorFS :=
  { LastHeight := 0
    LastRound := 0
    LastStep := 0
    LastSignature := []
    LastSignBytes := none
    PrivKey := [3]
    oldPrivKey := [3] }

/-- A state recorded at HRS (2, 1, 2) with prior bytes `[1]` and prior
signature `[9]`; witness input. -/
def pvSigned : PrivValidatorFS :=
  { LastHeight := 2
    LastRound := 1
    LastStep := 2
    LastSignature := [9]
    LastSignBytes := some [1]
    PrivKey := []
    oldPrivKey := [] }

/-- A state recorded at HRS (2, 1, 2) with no prior bytes; witness input. -/
def pvMissing : PrivValidatorFS :=
  { LastHeight := 2
    LastRound := 1
    LastStep := 2
    LastSignature := []
    LastSignBytes := none
    PrivKey := []
    oldPrivKey := [] }

/-- C1 witness: at `pvSigned` (HRS (2, 1, 2), prior bytes `[1]`), request
bytes `[2]` conflict; at `pvMissing` (same HRS, no prior bytes), the same
request hits `NoPriorSignature`. -/
theorem claim_C1_witness :
    signBytesHRS signerConst chkNever pvSigned 2 1 2 [2] =
      ⟨SignResult.err SignErr.ConflictingSignRequest, pvSigned, false, 0⟩ ∧
    signBytesHRS signerConst chkNever pvMissing 2 1 2 [2] =
      ⟨SignResult.err SignErr.NoPriorSignature, pvMissing, false, 0⟩ := by
  constructor
  · exact (claim_C1 signerConst chkNever pvSigned 2 1 2 [2] rfl rfl rfl).1
      [1] rfl (by decide) (by decide) rfl
  · exact (claim_C1 signerConst chkNever pvMissing 2 1 2 [2] rfl rfl rfl).2 rfl

/-- C2 witness: against `pvSigned` (HRS (2, 1, 2)), height 1 regresses,
round 0 at height 2 regresses, step 1 at (2, 1) regresses. -/
theorem claim_C2_witness :
    signBytesHRS signerConst chkNever pvSigned 1 0 0 [2] =
      ⟨SignResult.err SignErr.HeightRegression, pvSigned, false, 0⟩ ∧
    signBytesHRS signerConst chkNever pvSigned 2 0 0 [2] =
      ⟨SignResult.err SignErr.RoundRegression, pvSigned, false, 0⟩ ∧
    signBytesHRS signerConst chkNever pvSigned 2 1 1 [2] =
      ⟨SignResult.err SignErr.StepRegression, pvSigned, false, 0⟩ := by
  refine ⟨?_, ?_, ?_⟩
  · exact (claim_C2 signerConst chkNever pvSigned 1 0 0 [2]).1 (by decide)
  · exact (claim_C2 signerConst chkNever pvSigned 2 0 0 [2]).2.1 rfl (by decide)
  · exact (claim_C2 signerConst chkNever pvSigned 2 1 1 [2]).2.2 rfl rfl
      (by decide)

/-- C3 witness: replaying the byte-identical request `[1]` at the recorded
HRS of `pvSigned` returns the cached signature `[9]` with no Signer call. -/
theorem claim_C3_witness :
    signBytesHRS signerConst chkNever pvSigned 2 1 2 [1] =
      ⟨SignResult.ok pvSigned.LastSignature, pvSigned, false, 0⟩ :=
  claim_C3 signerConst chkNever pvSigned 2 1 2 [1] [1] rfl rfl rfl rfl
    (by decide) (Or.inl rfl)

/-- C4 witness: from the fresh state, signing at (1, 0, 2) with bytes `[5]`
commits exactly that request, and the one-element increasing sequence runs
to success. -/
theorem claim_C4_witness :
    signBytesHRS signerConst chkNever pvInit 1 0 2 [5] =
      ⟨SignResult.ok [7],
       { pvInit with
          LastHeight := 1
          LastRound := 0
          LastStep := 2
          LastSignature := [7]
          LastSignBytes := some [5] },
       true, 1⟩ ∧
    (signSeq signerConst chkNever pvInit ([] ++ [⟨1, 0, 2, [5]⟩])).2 = true := by
  constructor
  · exact (claim_C4 signerConst chkNever pvInit 1 0 2 [5] [7]
      [] ⟨1, 0, 2, [5]⟩).1 (by decide) rfl
  · exact ((claim_C4 signerConst chkNever pvInit 1 0 2 [5] [7]
      [] ⟨1, 0, 2, [5]⟩).2 (fun _ => ⟨[7], rfl⟩) ⟨by decide, trivial⟩).1

/-- C5 witness: from the fresh state, a strictly-greater request whose Signer
fails propagates the backend error and leaves the state untouched. -/
theorem claim_C5_witness :
    signBytesHRS signerFail chkNever pvInit 1 0 1 [5] =
      ⟨SignResult.err (SignErr.SigningBackendError "hw io failure"), pvInit,
       false, 1⟩ :=
  claim_C5 signerFail chkNever pvInit 1 0 1 [5] "hw io failure" (by decide) rfl

/-- C7 witness: after `ModifyLastHeight pvInit 20`, a prevote at
(20, 0) fails with `StepRegression` and a proposal at (20 + 1, 0)
succeeds. -/
theorem claim_C7_witness :
    SignVote signerConst chkNever (ModifyLastHeight pvInit 20).1
        { vtype := VoteType.Prevote, Height := 20, Round := 0 } [5] =
      ⟨SignResult.err SignErr.StepRegression, (ModifyLastHeight pvInit 20).1,
       false, 0⟩ ∧
    (SignProposal signerConst chkNever (ModifyLastHeight pvInit 20).1
        { Height := 20 + 1, Round := 0 } [6]).result = SignResult.ok [7] := by
  have hc := claim_C7 signerConst chkNever chkNever pvInit 20 [5] [6] [7] rfl
  refine ⟨hc.2.1, ?_⟩
  rw [hc.2.2]

/-- A state whose live key differs from the escrowed original key; witness
input for C9. -/
def pvEscrow : PrivValidatorFS :=
  { LastHeight := 0
    LastRound := 0
    LastStep := 0
    LastSignature := []
    LastSignBytes := none
    PrivKey := [1, 2]
    oldPrivKey := [3, 4] }

/-- C9 witness: saving `pvEscrow` leaves the live state untouched and the
persisted record carries the escrowed key `[3, 4]`. -/
theorem claim_C9_witness :
    (save pvEscrow).1 = pvEscrow ∧
    (save pvEscrow).2 = { pvEscrow with PrivKey := [3, 4] } := by
  have hc := claim_C9 pvEscrow
  exact ⟨hc.1, hc.2 (by decide)⟩

end Tendermint
